import Mathlib

/-
Verification of the PDF-to-Word converter (converter_arquivos.py).

The source file is a thin orchestration layer over an external PDF parser
and an external word-document builder.  We embed the logic of the script
shallowly:

* a Page carries the raw text returned by page.get_text, the data of the
  tables returned by page.find_tables (None when the parser lacks the
  method, modelled by the tablesSupported flag), and the embedded image
  references returned by page.get_images;
* the output word document is a list of block-level elements (paragraph,
  table, image); a docx table is a flat row-major cell list of length
  rows * cols, and doc_table.cell(r, c) indexes it at c + r * cols,
  raising IndexError when the flat index is out of range (this is the
  behaviour of the external docx library that the script relies on);
* external effects that can fail (fitz.open, temp_dir.mkdir, doc.save,
  unlink, rmdir, doc.add_picture) are driven by oracles recorded in an
  Env value, so that every success and failure path of the script is a
  value of the model;
* the temporary directory is modelled as an association list of
  file name / content pairs together with an existence flag, and the
  result of one conversion records the outcome, the destination content,
  the surviving temp state and how often pdf.close() ran.
-/

namespace PdfWord

/-- A block-level element of the generated word document. -/
inductive Block where
  | para : String → Block
  | table : Nat → Nat → List String → Block
  | image : String → Block
deriving DecidableEq

/-- Whether a block is an image block. -/
def Block.isImage : Block → Bool
  | .image _ => true
  | _ => false

/-- One embedded raster image reference of a page: the internal id (xref),
the raw encoded bytes returned by extract_image, and whether
doc.add_picture accepts the file (false models a corrupt or unsupported
encoding, the case the script catches). -/
structure PdfImage where
  xref : Nat
  bytes : List Nat
  insertOk : Bool
deriving DecidableEq

/-- One page of the source document: raw text from get_text, the table
data from find_tables (tablesSupported is false when the parser lacks
find_tables, in which case the script sees None), and the image
references.  A table cell extracted by the parser is None or a string. -/
structure Page where
  text : String
  tablesSupported : Bool
  tables : List (List (List (Option String)))
  images : List PdfImage
deriving DecidableEq

/-- A parsed source document is its ordered page sequence. -/
abbrev Pdf := List Page

/-- The files inside the temporary directory: name and content pairs. -/
abbrev TempFs := List (String × List Nat)

/-- Python str.strip(): drop leading and trailing whitespace. -/
def stripStr (s : String) : String :=
  ⟨((s.data.dropWhile Char.isWhitespace).reverse.dropWhile Char.isWhitespace).reverse⟩

/-- Python str.lower() on the characters of a string. -/
def strToLower (s : String) : String := ⟨s.data.map Char.toLower⟩

/-- Suffix test on strings (the meaning of the fnmatch pattern *.pdf). -/
def strEndsWith (s pat : String) : Bool := pat.data.isSuffixOf s.data

/-- Python string comparison: lexicographic by code point. -/
def leChars : List Char → List Char → Bool
  | [], _ => true
  | _ :: _, [] => false
  | c :: cs, d :: ds =>
    if c.toNat < d.toNat then true
    else if d.toNat < c.toNat then false
    else leChars cs ds

/-- Python string less-or-equal. -/
def leStr (a b : String) : Bool := leChars a.data b.data

/-- The cell text written by the script: (cell or "").strip(). -/
def trimCell (c : Option String) : String := stripStr (c.getD "")

/-- Assignment to the flat row-major cell list of a docx table:
the docx library raises IndexError when the flat index is out of range. -/
def setFlat (cells : List String) (i : Nat) (v : String) : Except String (List String) :=
  if i < cells.length then .ok (cells.set i v) else .error "IndexError"

/-- Inner loop of extract_tables: for c, cell in enumerate(row), write
doc_table.cell(r, c).text at flat index c + r * cols. -/
def writeRowAux (cols r : Nat) (row : List (Option String)) (c : Nat)
    (cells : List String) : Except String (List String) :=
  match row with
  | [] => .ok cells
  | cell :: rest =>
    match setFlat cells (c + r * cols) (trimCell cell) with
    | .error e => .error e
    | .ok cells2 => writeRowAux cols r rest (c + 1) cells2

/-- Outer loop of extract_tables: for r, row in enumerate(data). -/
def writeRows (cols : Nat) (rows : List (List (Option String))) (r : Nat)
    (cells : List String) : Except String (List String) :=
  match rows with
  | [] => .ok cells
  | row :: rest =>
    match writeRowAux cols r row 0 cells with
    | .error e => .error e
    | .ok cells2 => writeRows cols rest (r + 1) cells2

/-- Body of the per-table loop of extract_tables: data = table.extract();
if not data: continue; rows, cols = len(data), len(data[0]);
doc.add_table(rows, cols) starts with every cell empty, then the cells
are written one by one. -/
def processTable (data : List (List (Option String))) (doc : List Block) :
    Except String (List Block) :=
  match data with
  | [] => .ok doc
  | first :: rest =>
    match writeRows first.length (first :: rest) 0
        (List.replicate ((rest.length + 1) * first.length) "") with
    | .error e => .error e
    | .ok cells => .ok (doc ++ [Block.table (rest.length + 1) first.length cells])

/-- The for table in tables.tables loop. -/
def tablesLoop (ts : List (List (List (Option String)))) (doc : List Block) :
    Except String (List Block) :=
  match ts with
  | [] => .ok doc
  | t :: rest =>
    match processTable t doc with
    | .error e => .error e
    | .ok doc2 => tablesLoop rest doc2

/-- extract_tables(page, doc): find_tables (None on AttributeError),
return early when the result or its table list is empty, otherwise copy
every table. -/
def extract_tables (page : Page) (doc : List Block) : Except String (List Block) :=
  match (if page.tablesSupported then some page.tables else none) with
  | none => .ok doc
  | some ts => if ts.isEmpty then .ok doc else tablesLoop ts doc

/-- From the claim text: the maximum row length of an extracted table,
the column count the specification asserts for the copied grid. -/
def specMaxRowLen (data : List (List (Option String))) : Nat :=
  data.foldl (fun m row => max m row.length) 0

/-- Length of the first row of extracted table data (0 when empty). -/
def firstLen (data : List (List (Option String))) : Nat :=
  match data with
  | [] => 0
  | first :: _ => first.length

/-- The grid block the script appends for one table whose rows are all at
most as long as the first row: row count = number of extracted rows,
column count = length of the first row, each present cell trimmed, the
tail of a short row left as empty strings.  Empty data produces no block. -/
def tableGrid (data : List (List (Option String))) : Option Block :=
  match data with
  | [] => none
  | first :: rest =>
    some (Block.table (rest.length + 1) first.length
      ((first :: rest).flatMap
        (fun row => row.map trimCell ++ List.replicate (first.length - row.length) "")))

/-- The temp file name used for one image: img_<xref>.png. -/
def imgFileName (xref : Nat) : String := "img_" ++ toString xref ++ ".png"

/-- tmp_path.write_bytes: create the file or overwrite an existing one. -/
def writeTempFile (fs : TempFs) (name : String) (content : List Nat) : TempFs :=
  if fs.any (fun f => f.1 = name) then
    fs.map (fun f => if f.1 = name then (name, content) else f)
  else fs ++ [(name, content)]

/-- The for img in page.get_images(full=True) loop: write the bytes to the
temp directory, then try doc.add_picture, swallowing its failure. -/
def insertImages (imgs : List PdfImage) (doc : List Block) (fs : TempFs) :
    List Block × TempFs :=
  match imgs with
  | [] => (doc, fs)
  | img :: rest =>
    insertImages rest
      (if img.insertOk then doc ++ [Block.image (imgFileName img.xref)] else doc)
      (writeTempFile fs (imgFileName img.xref) img.bytes)

/-- extract_images(page, doc, temp_dir). -/
def extract_images (page : Page) (doc : List Block) (fs : TempFs) :
    List Block × TempFs :=
  insertImages page.images doc fs

/-- The per-page text step: text = page.get_text("text").strip();
if text: doc.add_paragraph(text). -/
def withPara (txt : String) (doc : List Block) : List Block :=
  if stripStr txt = "" then doc else doc ++ [Block.para (stripStr txt)]

/-- One iteration of the page loop of convert_pdf_to_docx: paragraph,
tables, then images when includeImages is set.  An IndexError escaping
the table copy aborts the page (and the conversion); image insertion
failures are swallowed inside extract_images. -/
def processPage (includeImages : Bool) (page : Page) (doc : List Block)
    (fs : TempFs) : Except String (List Block) × TempFs :=
  match extract_tables page (withPara page.text doc) with
  | .error e => (.error e, fs)
  | .ok doc2 =>
    if includeImages then
      ((Except.ok (extract_images page doc2 fs).1), (extract_images page doc2 fs).2)
    else (.ok doc2, fs)

/-- The for page in pdf loop, threading the document and the temp files;
the temp state at the moment of a failure is kept for cleanup. -/
def processPages (includeImages : Bool) (pages : List Page) (doc : List Block)
    (fs : TempFs) : Except String (List Block) × TempFs :=
  match pages with
  | [] => (.ok doc, fs)
  | p :: rest =>
    match processPage includeImages p doc fs with
    | (.error e, fs2) => (.error e, fs2)
    | (.ok doc2, fs2) => processPages includeImages rest doc2 fs2

/-- The wall-clock value read by datetime.now(), down to microseconds. -/
structure DateTime where
  year : Nat
  month : Nat
  day : Nat
  hour : Nat
  minute : Nat
  second : Nat
  micro : Nat
deriving DecidableEq

/-- Zero-padded decimal rendering of one strftime field. -/
def padNum (width n : Nat) : String :=
  ("".pushn '0' (width - (toString n).length)) ++ toString n

/-- strftime("%Y%m%d%H%M%S"): second resolution, the micro field is not
rendered. -/
def timestampStr (t : DateTime) : String :=
  padNum 4 t.year ++ padNum 2 t.month ++ padNum 2 t.day ++
    padNum 2 t.hour ++ padNum 2 t.minute ++ padNum 2 t.second

/-- The temporary directory name chosen by convert_pdf_to_docx. -/
def tempDirName (t : DateTime) : String := "_tmp_imgs_" ++ timestampStr t

/-- Oracles for the external effects of one convert_pdf_to_docx call:
fitz.open (none = OpenError), temp_dir.mkdir, doc.save, per-file unlink
during cleanup, temp_dir.rmdir, and the clock. -/
structure Env where
  openResult : Option Pdf
  mkdirOk : Bool
  saveOk : Bool
  unlinkOk : String → Bool
  rmdirOk : Bool
  now : DateTime

/-- Observable result of one convert_pdf_to_docx call: the outcome, the
content at the destination path, the name of the temp directory that was
created (none when it never was), whether it still exists on return, the
files surviving in it, and how many times pdf.close() ran. -/
structure ConvResult where
  outcome : Except String Unit
  dest : Option (List Block)
  tempName : Option String
  tempDirExists : Bool
  tempFiles : TempFs
  closeCount : Nat

/-- The cleanup loop over temp_dir.glob("*"): unlink each file inside a
try/except, so a file whose unlink fails survives. -/
def cleanupTemp (unlinkOk : String → Bool) (fs : TempFs) : TempFs :=
  fs.filter (fun f => ! unlinkOk f.1)

/-- convert_pdf_to_docx(pdf_path, docx_path, include_images).
fitz.open runs first; Document() and temp_dir.mkdir run before the
try/finally, so a mkdir failure propagates without closing the source.
Inside the try the pages are processed and doc.save runs only after every
page succeeded.  The finally block unlinks each temp file (errors
swallowed), removes the directory when it is empty and rmdir succeeds
(OSError swallowed), and then closes the source document. -/
def convert_pdf_to_docx (env : Env) (includeImages : Bool)
    (dest0 : Option (List Block)) : ConvResult :=
  match env.openResult with
  | none =>
    { outcome := .error "OpenError", dest := dest0, tempName := none,
      tempDirExists := false, tempFiles := [], closeCount := 0 }
  | some pdf =>
    if env.mkdirOk then
      let pr := processPages includeImages pdf [] []
      let remaining := cleanupTemp env.unlinkOk pr.2
      let removed := env.rmdirOk && remaining.isEmpty
      match pr.1 with
      | .error e =>
        { outcome := .error e, dest := dest0,
          tempName := some (tempDirName env.now),
          tempDirExists := !removed, tempFiles := remaining, closeCount := 1 }
      | .ok doc =>
        if env.saveOk then
          { outcome := .ok (), dest := some doc,
            tempName := some (tempDirName env.now),
            tempDirExists := !removed, tempFiles := remaining, closeCount := 1 }
        else
          { outcome := .error "WriteError", dest := dest0,
            tempName := some (tempDirName env.now),
            tempDirExists := !removed, tempFiles := remaining, closeCount := 1 }
    else
      { outcome := .error "MkdirError", dest := dest0, tempName := none,
        tempDirExists := false, tempFiles := [], closeCount := 0 }

/-- Observable user-interface effects of the batch driver. -/
inductive Event where
  | warnBox : String → Event
  | errorBox : String → Event
  | infoBox : String → Event
  | statusMsg : String → Event
  | progress : Nat → Event
deriving DecidableEq

/-- The method convert_single: run the engine on one file; on any
exception show an error box naming the file and the cause and return
normally.  The oracle gives the cause of the failure of the engine on a
file, none on success. -/
def convertSingleEvents (out : String → Option String) (name : String) :
    List Event :=
  match out name with
  | some cause => [Event.errorBox ("Falha ao converter " ++ name ++ ": " ++ cause)]
  | none => []

/-- The per-file loop of _convert_all_pdfs: status line, conversion of one
file, progress update; the loop always continues to the next file. -/
def runFiles (out : String → Option String) (total idx : Nat)
    (files : List String) : List Event :=
  match files with
  | [] => []
  | f :: rest =>
    Event.statusMsg (f ++ " (" ++ toString (idx + 1) ++ "/" ++ toString total ++ ")") ::
      (convertSingleEvents out f ++
        (Event.progress (idx + 1) :: runFiles out total (idx + 1) rest))

/-- The method convert_all_pdfs on an already-discovered sorted file
list: warn and stop when the list is empty, otherwise convert every file
and finish with the completion status naming the total count and a
success box. -/
def convertAllPdfs (files : List String) (out : String → Option String) :
    List Event :=
  if files.length = 0 then
    [Event.warnBox "Nenhum PDF encontrado na pasta selecionada."]
  else
    Event.statusMsg ("Convertendo 0/" ++ toString files.length ++ "…") ::
      (runFiles out files.length 0 files ++
        [Event.statusMsg ("Concluído! " ++ toString files.length ++
            " arquivo(s) convertidos."),
          Event.infoBox "Conversão finalizada com êxito!"])

/-- The match of the glob pattern *.pdf against one file name.  Python
pathlib matches case-sensitively under the posix flavour and folds case
under the windows flavour, so the same source line discovers different
files on the two platforms. -/
def matchesPdfPattern (caseSensitive : Bool) (name : String) : Bool :=
  if caseSensitive then strEndsWith name ".pdf"
  else strEndsWith (strToLower name) ".pdf"

/-- Insertion into a name-sorted list. -/
def insertSorted (x : String) : List String → List String
  | [] => [x]
  | y :: ys => if leStr x y then x :: y :: ys else y :: insertSorted x ys

/-- sorted(): name-sorted copy of a list. -/
def sortNames : List String → List String
  | [] => []
  | x :: xs => insertSorted x (sortNames xs)

/-- sorted(Path(src_dir).glob("*.pdf")): the files the batch driver
discovers in a folder listing. -/
def discoverPdfs (caseSensitive : Bool) (names : List String) : List String :=
  sortNames (names.filter (matchesPdfPattern caseSensitive))

/-- Writing one extracted row into the flat cell list: when the flat list
splits as pre ++ rest with pre.length = r * cols + c and the row fits in
rest, each cell lands right after pre, trimmed, and the tail of rest is
kept. -/
theorem writeRowAux_spec (row : List (Option String)) (r cols : Nat) :
    ∀ (c : Nat) (pre rest : List String), pre.length = r * cols + c →
      row.length ≤ rest.length →
      writeRowAux cols r row c (pre ++ rest) =
        .ok (pre ++ (row.map trimCell ++ rest.drop row.length)) := by
  induction row with
  | nil => intro c pre rest hpre hlen; simp [writeRowAux]
  | cons x xs ih =>
    intro c pre rest hpre hlen
    cases rest with
    | nil => simp at hlen
    | cons y rest2 =>
      have hidx : c + r * cols < (pre ++ y :: rest2).length := by
        simp only [List.length_append, List.length_cons, hpre]; omega
      have hset : setFlat (pre ++ y :: rest2) (c + r * cols) (trimCell x) =
          .ok (pre ++ trimCell x :: rest2) := by
        unfold setFlat
        rw [if_pos hidx]
        have he : c + r * cols = pre.length := by omega
        rw [he, List.set_append_right _ _ (Nat.le_refl _)]
        simp
      have hrec := ih (c + 1) (pre ++ [trimCell x]) rest2
        (by simp only [List.length_append, List.length_cons, List.length_nil, hpre]; omega)
        (by simpa using hlen)
      simp only [writeRowAux, hset]
      rw [show pre ++ trimCell x :: rest2 = (pre ++ [trimCell x]) ++ rest2 by simp]
      rw [hrec]
      simp

/-- Writing all extracted rows, each at most cols long, into the fresh
flat cell list: every row yields its trimmed cells padded with empty
strings up to cols. -/
theorem writeRows_spec (rows : List (List (Option String))) (cols : Nat)
    (hrows : ∀ row ∈ rows, row.length ≤ cols) :
    ∀ (r : Nat) (pre : List String), pre.length = r * cols →
      writeRows cols rows r (pre ++ List.replicate (rows.length * cols) "") =
        .ok (pre ++ rows.flatMap
          (fun row => row.map trimCell ++ List.replicate (cols - row.length) "")) := by
  induction rows with
  | nil => intro r pre hpre; simp [writeRows]
  | cons row rest ih =>
    intro r pre hpre
    have hrow : row.length ≤ cols := hrows row (by simp)
    have hsplit : (row :: rest).length * cols = cols + rest.length * cols := by
      simp only [List.length_cons, Nat.succ_mul]; omega
    rw [hsplit, List.replicate_add]
    have h1 := writeRowAux_spec row r cols 0 pre
      (List.replicate cols "" ++ List.replicate (rest.length * cols) "")
      (by simpa using hpre)
      (by simp only [List.length_append, List.length_replicate]; omega)
    have hdrop : (List.replicate cols "" ++
        List.replicate (rest.length * cols) "").drop row.length =
        List.replicate (cols - row.length) "" ++
          List.replicate (rest.length * cols) "" := by
      rw [List.drop_append_of_le_length (by simpa using hrow), List.drop_replicate]
    simp only [writeRows, h1, hdrop]
    have hpre2 : (pre ++ (row.map trimCell ++
        List.replicate (cols - row.length) "")).length = (r + 1) * cols := by
      simp only [List.length_append, List.length_map, List.length_replicate,
        Nat.succ_mul, hpre]
      omega
    have h2 := ih (fun q hq => hrows q (by simp [hq])) (r + 1)
      (pre ++ (row.map trimCell ++ List.replicate (cols - row.length) ""))
      hpre2
    have hassoc : pre ++ (row.map trimCell ++
        (List.replicate (cols - row.length) "" ++
          List.replicate (rest.length * cols) "")) =
        (pre ++ (row.map trimCell ++ List.replicate (cols - row.length) "")) ++
          List.replicate (rest.length * cols) "" := by
      simp
    rw [hassoc, h2]
    simp

/-- Copying one table whose first row is at least as long as every other
row appends exactly the padded, trimmed grid. -/
theorem processTable_spec (first : List (Option String))
    (rest : List (List (Option String))) (doc : List Block)
    (h : ∀ row ∈ first :: rest, row.length ≤ first.length) :
    processTable (first :: rest) doc =
      .ok (doc ++ [Block.table (rest.length + 1) first.length
        ((first :: rest).flatMap
          (fun row => row.map trimCell ++
            List.replicate (first.length - row.length) ""))]) := by
  have hw := writeRows_spec (first :: rest) first.length h 0 [] (by simp)
  simp only [List.nil_append, List.length_cons] at hw
  simp only [processTable, hw]

/-- The per-table loop appends the grids of all tables with nonempty
data, in order, when every table has its first row longest. -/
theorem tablesLoop_spec (ts : List (List (List (Option String)))) :
    (∀ data ∈ ts, ∀ row ∈ data, row.length ≤ firstLen data) →
    ∀ doc : List Block, tablesLoop ts doc = .ok (doc ++ ts.filterMap tableGrid) := by
  induction ts with
  | nil => intro h doc; simp [tablesLoop]
  | cons t rest ih =>
    intro h doc
    have hrest : ∀ data ∈ rest, ∀ row ∈ data, row.length ≤ firstLen data :=
      fun d hd => h d (List.mem_cons_of_mem _ hd)
    cases t with
    | nil =>
      simp only [tablesLoop, processTable]
      rw [ih hrest doc]
      simp [tableGrid]
    | cons f r =>
      have ht : ∀ row ∈ f :: r, row.length ≤ f.length := by
        have := h (f :: r) (by simp)
        simpa [firstLen] using this
      simp only [tablesLoop, processTable_spec f r doc ht]
      rw [ih hrest]
      simp [tableGrid]

/-- C1 (amended): for every detected table with at least one row whose
first row is at least as long as every other row, extract_tables appends
to the output document a grid whose row count is the number of extracted
rows and whose column count is the length of the first row (equal to the
maximum row length in that case), each present cell trimmed of
surrounding whitespace, absent and None cells rendered as empty
strings. -/
theorem extract_tables_appends_padded_grids (txt : String)
    (tables : List (List (List (Option String)))) (imgs : List PdfImage)
    (doc : List Block)
    (h : ∀ data ∈ tables, ∀ row ∈ data, row.length ≤ firstLen data) :
    extract_tables ⟨txt, true, tables, imgs⟩ doc =
      .ok (doc ++ tables.filterMap tableGrid) := by
  cases tables with
  | nil => simp [extract_tables]
  | cons t rest => exact tablesLoop_spec (t :: rest) h doc

/-- Witness for C1 at the jagged 3,2,3 example of the specification: the
copied grid is 3 by 3, cells trimmed, the missing cell of the short row
an empty string. -/
theorem extract_tables_appends_padded_grids_witness :
    extract_tables ⟨"", true,
        [[[some "a", some " b ", some "c"], [some "d", none],
          [some "e", some "f", some "g"]]], []⟩ [] =
      .ok [Block.table 3 3 ["a", "b", "c", "d", "", "", "e", "f", "g"]] := by
  exact (extract_tables_appends_padded_grids ""
    [[[some "a", some " b ", some "c"], [some "d", none],
      [some "e", some "f", some "g"]]] [] [] (by decide)).trans (by rfl)

/-- C1 (counterexample): on the jagged table with row lengths 2,3,2 the
column count of the appended grid is the first row length 2, not the
maximum row length 3, and the cell e of the longer row is silently lost
by the flat-index aliasing of the docx cell accessor, so the grid the
claim asserts is not produced. -/
theorem extract_tables_counterexample :
    extract_tables ⟨"", true,
        [[[some "a", some "b"], [some "c", some "d", some "e"],
          [some "f", some "g"]]], []⟩ [] =
      .ok [Block.table 3 2 ["a", "b", "c", "d", "f", "g"]] ∧
    specMaxRowLen [[some "a", some "b"], [some "c", some "d", some "e"],
        [some "f", some "g"]] = 3 ∧
    extract_tables ⟨"", true,
        [[[some "a", some "b"], [some "c", some "d", some "e"],
          [some "f", some "g"]]], []⟩ [] ≠
      .ok [Block.table 3 3 ["a", "b", "", "c", "d", "e", "f", "g", ""]] := by
  refine ⟨rfl, rfl, fun hcontra => ?_⟩
  have hlists : [Block.table 3 2 ["a", "b", "c", "d", "f", "g"]] =
      [Block.table 3 3 ["a", "b", "", "c", "d", "e", "f", "g", ""]] := by
    have hok : (Except.ok [Block.table 3 2 ["a", "b", "c", "d", "f", "g"]] :
        Except String (List Block)) =
        .ok [Block.table 3 3 ["a", "b", "", "c", "d", "e", "f", "g", ""]] := by
      exact (by rfl : (Except.ok [Block.table 3 2 ["a", "b", "c", "d", "f", "g"]] :
        Except String (List Block)) = _).symm.trans hcontra
    injection hok
  exact absurd hlists (by decide)

/-- The document component of the image loop: exactly the images whose
insertion succeeds are appended, in order; the loop itself never fails. -/
theorem insertImages_fst (imgs : List PdfImage) :
    ∀ (doc : List Block) (fs : TempFs),
      (insertImages imgs doc fs).1 =
        doc ++ (imgs.filter (fun i => i.insertOk)).map
          (fun i => Block.image (imgFileName i.xref)) := by
  induction imgs with
  | nil => intro doc fs; simp [insertImages]
  | cons img rest ih =>
    intro doc fs
    by_cases h : img.insertOk
    · simp [insertImages, h, ih]
    · simp [insertImages, h, ih]

/-- C4: a page carrying images of which exactly one is corrupt or
unsupported (its insertion fails) is still processed without error: the
paragraph text and the copied tables are untouched and every other image
is inserted; the single bad image never aborts the page or the file. -/
theorem one_bad_image_never_aborts (txt : String) (tsup : Bool)
    (tables : List (List (List (Option String))))
    (pre post : List PdfImage) (bad : PdfImage)
    (doc : List Block) (fs : TempFs) (tb : List Block)
    (hpre : ∀ i ∈ pre, i.insertOk = true)
    (hpost : ∀ i ∈ post, i.insertOk = true)
    (hbad : bad.insertOk = false)
    (htab : extract_tables ⟨txt, tsup, tables, pre ++ bad :: post⟩
        (withPara txt doc) = .ok tb) :
    (processPage true ⟨txt, tsup, tables, pre ++ bad :: post⟩ doc fs).1 =
      .ok (tb ++ (pre ++ post).map (fun i => Block.image (imgFileName i.xref))) := by
  have hfilter : (pre ++ bad :: post).filter (fun i => i.insertOk) = pre ++ post := by
    rw [List.filter_append, List.filter_cons]
    simp [hbad, List.filter_eq_self.mpr hpre, List.filter_eq_self.mpr hpost]
  simp only [processPage, htab, extract_images, insertImages_fst, if_true]
  rw [hfilter]

/-- Witness for C4: three images, the middle one corrupt; the page text
and the two good images all arrive in the output document. -/
theorem one_bad_image_never_aborts_witness :
    (processPage true ⟨"hi", true, [],
        [⟨1, [0], true⟩, ⟨2, [1], false⟩, ⟨3, [2], true⟩]⟩ [] []).1 =
      .ok [Block.para "hi", Block.image "img_1.png", Block.image "img_3.png"] := by
  have h := one_bad_image_never_aborts "hi" true [] [⟨1, [0], true⟩]
    [⟨3, [2], true⟩] ⟨2, [1], false⟩ [] [] [Block.para "hi"]
    (by decide) (by decide) rfl (by rfl)
  exact h.trans (by rfl)

/-- Copying one table into a document stripped of its image blocks gives
the stripped result of copying it into the original document: a table
block survives the stripping. -/
theorem processTable_filter (data : List (List (Option String)))
    (doc : List Block) :
    processTable data (doc.filter (fun b => !b.isImage)) =
      Except.map (fun d => d.filter (fun b => !b.isImage)) (processTable data doc) := by
  cases data with
  | nil => simp [processTable, Except.map]
  | cons first rest =>
    simp only [processTable]
    cases hw : writeRows first.length (first :: rest) 0
        (List.replicate ((rest.length + 1) * first.length) "") with
    | error e => simp [Except.map]
    | ok cells => simp [Except.map, List.filter_append, Block.isImage]

/-- The table loop commutes with stripping image blocks from the
accumulated document. -/
theorem tablesLoop_filter (ts : List (List (List (Option String)))) :
    ∀ doc : List Block,
      tablesLoop ts (doc.filter (fun b => !b.isImage)) =
        Except.map (fun d => d.filter (fun b => !b.isImage)) (tablesLoop ts doc) := by
  induction ts with
  | nil => intro doc; simp [tablesLoop, Except.map]
  | cons t rest ih =>
    intro doc
    simp only [tablesLoop]
    cases hp : processTable t doc with
    | error e =>
      have h2 := processTable_filter t doc
      rw [hp] at h2
      simp only [Except.map] at h2
      rw [h2]
      simp [Except.map]
    | ok doc2 =>
      have h2 := processTable_filter t doc
      rw [hp] at h2
      simp only [Except.map] at h2
      rw [h2]
      exact ih doc2

/-- extract_tables commutes with stripping image blocks from the
accumulated document. -/
theorem extract_tables_filter (page : Page) (doc : List Block) :
    extract_tables page (doc.filter (fun b => !b.isImage)) =
      Except.map (fun d => d.filter (fun b => !b.isImage))
        (extract_tables page doc) := by
  rcases page with ⟨txt, tsup, tables, imgs⟩
  cases tsup with
  | false => simp [extract_tables, Except.map]
  | true =>
    cases tables with
    | nil => simp [extract_tables, Except.map]
    | cons t rest =>
      simpa [extract_tables] using tablesLoop_filter (t :: rest) doc

/-- The paragraph step commutes with stripping image blocks. -/
theorem withPara_filter (txt : String) (doc : List Block) :
    withPara txt (doc.filter (fun b => !b.isImage)) =
      (withPara txt doc).filter (fun b => !b.isImage) := by
  unfold withPara
  by_cases h : stripStr txt = ""
  · simp [h]
  · simp [h, List.filter_append, Block.isImage]

/-- Image blocks never survive the stripping. -/
theorem filter_image_blocks (l : List PdfImage) :
    (l.map (fun i => Block.image (imgFileName i.xref))).filter
      (fun b => !b.isImage) = [] := by
  induction l with
  | nil => rfl
  | cons i rest ih => simp [Block.isImage, ih]

/-- Processing one page without images yields exactly the page processed
with images with every image block stripped, including on the failure
path. -/
theorem processPage_filter (page : Page) (doc : List Block)
    (fs1 fs2 : TempFs) :
    (processPage false page (doc.filter (fun b => !b.isImage)) fs2).1 =
      Except.map (fun d => d.filter (fun b => !b.isImage))
        ((processPage true page doc fs1).1) := by
  simp only [processPage]
  rw [withPara_filter]
  cases ht : extract_tables page (withPara page.text doc) with
  | error e =>
    have h2 := extract_tables_filter page (withPara page.text doc)
    rw [ht] at h2
    simp only [Except.map] at h2
    rw [h2]
    simp [Except.map]
  | ok doc2 =>
    have h2 := extract_tables_filter page (withPara page.text doc)
    rw [ht] at h2
    simp only [Except.map] at h2
    rw [h2]
    simp only [if_true, Bool.false_eq_true, if_false, Except.map,
      extract_images, insertImages_fst]
    rw [List.filter_append, filter_image_blocks]
    simp

/-- The page loop without images yields the page loop with images with
every image block stripped, errors preserved. -/
theorem processPages_filter (pages : List Page) :
    ∀ (doc : List Block) (fs1 fs2 : TempFs),
      (processPages false pages (doc.filter (fun b => !b.isImage)) fs2).1 =
        Except.map (fun d => d.filter (fun b => !b.isImage))
          ((processPages true pages doc fs1).1) := by
  induction pages with
  | nil => intro doc fs1 fs2; simp [processPages, Except.map]
  | cons pg rest ih =>
    intro doc fs1 fs2
    simp only [processPages]
    cases hpp : processPage true pg doc fs1 with
    | mk res1 fs1b =>
      cases hqq : processPage false pg (doc.filter (fun b => !b.isImage)) fs2 with
      | mk res2 fs2b =>
        have h2 := processPage_filter pg doc fs1 fs2
        rw [hpp, hqq] at h2
        simp only [] at h2
        cases res1 with
        | error e =>
          simp only [Except.map] at h2
          subst h2
          simp [Except.map]
        | ok d2 =>
          simp only [Except.map] at h2
          subst h2
          exact ih d2 fs1b fs2b

/-- C8: whenever a conversion with includeImages = true succeeds and
writes a block sequence, the same source converted with
includeImages = false also succeeds and writes exactly that sequence
with the image blocks removed: the paragraph and table blocks are
unchanged and the written document contains zero image blocks. -/
theorem include_images_false_strips_only_images (pdf : Pdf)
    (dest0 dest1 : Option (List Block)) (u u2 : String → Bool)
    (r r2 : Bool) (t t2 : DateTime) (bs : List Block)
    (hok : (convert_pdf_to_docx ⟨some pdf, true, true, u, r, t⟩ true
        dest0).outcome = .ok ())
    (hdest : (convert_pdf_to_docx ⟨some pdf, true, true, u, r, t⟩ true
        dest0).dest = some bs) :
    (convert_pdf_to_docx ⟨some pdf, true, true, u2, r2, t2⟩ false
        dest1).outcome = .ok () ∧
    (convert_pdf_to_docx ⟨some pdf, true, true, u2, r2, t2⟩ false
        dest1).dest = some (bs.filter (fun b => !b.isImage)) ∧
    (bs.filter (fun b => !b.isImage)).countP (fun b => b.isImage) = 0 := by
  simp only [convert_pdf_to_docx, if_true] at hok hdest ⊢
  cases hp : processPages true pdf [] [] with
  | mk res fs =>
    rw [hp] at hok hdest
    cases hq : processPages false pdf [] [] with
    | mk res2 fs2 =>
      have hfil := processPages_filter pdf [] [] []
      simp only [List.filter_nil] at hfil
      rw [hp, hq] at hfil
      cases res with
      | error e => simp at hok
      | ok doc =>
        simp only [if_true] at hok hdest
        simp only [Except.map] at hfil
        have hbs : doc = bs := by
          simpa using hdest
        subst hbs
        rw [hfil]
        refine ⟨rfl, rfl, ?_⟩
        rw [List.countP_eq_zero]
        intro a ha
        have := (List.mem_filter.mp ha).2
        simp at this
        simp [this]

/-- Witness for C8: a one-page source with text and one image; converting
without images writes only the paragraph. -/
theorem include_images_false_strips_only_images_witness :
    (convert_pdf_to_docx ⟨some [⟨"hi", true, [], [⟨1, [7], true⟩]⟩], true, true,
        (fun _ => true), true, ⟨2024, 1, 1, 0, 0, 0, 0⟩⟩ false none).dest =
      some [Block.para "hi"] := by
  have h := include_images_false_strips_only_images
    [⟨"hi", true, [], [⟨1, [7], true⟩]⟩] none none
    (fun _ => true) (fun _ => true) true true
    ⟨2024, 1, 1, 0, 0, 0, 0⟩ ⟨2024, 1, 1, 0, 0, 0, 0⟩
    [Block.para "hi", Block.image "img_1.png"] (by rfl) (by rfl)
  exact h.2.1.trans (by rfl)

/-- C2: once the temporary directory was created (open and mkdir
succeeded), every file inside it is deleted and the directory itself
removed before convert returns, on the success path and on every failure
path (any page failure, any save failure), whenever the cleanup
operations themselves succeed; and the outcome of the call is identical
under any two cleanup oracles, so an error during cleanup is ignored and
never replaces the original result. -/
theorem temp_cleanup_unconditional (pdf : Pdf) (inc : Bool)
    (dest0 : Option (List Block)) (sv : Bool) (t : DateTime)
    (u1 u2 : String → Bool) (r1 r2 : Bool) :
    ((convert_pdf_to_docx ⟨some pdf, true, sv, (fun _ => true), true, t⟩ inc
        dest0).tempFiles = [] ∧
      (convert_pdf_to_docx ⟨some pdf, true, sv, (fun _ => true), true, t⟩ inc
        dest0).tempDirExists = false) ∧
    (convert_pdf_to_docx ⟨some pdf, true, sv, u1, r1, t⟩ inc dest0).outcome =
      (convert_pdf_to_docx ⟨some pdf, true, sv, u2, r2, t⟩ inc dest0).outcome := by
  simp only [convert_pdf_to_docx, if_true]
  cases hp : processPages inc pdf [] [] with
  | mk res fs =>
    have hclean : cleanupTemp (fun _ => true) fs = [] := by
      simp [cleanupTemp]
    constructor
    · cases res with
      | error e => simp [hclean]
      | ok doc => cases sv <;> simp [hclean]
    · cases res with
      | error e => rfl
      | ok doc => cases sv <;> rfl

/-- C3: convert writes to the destination only when opening, every page,
and serialization all succeed; on any failure the destination content is
left exactly as it was, and on full success the destination holds the
document built from the pages. -/
theorem no_partial_write :
    (∀ (env : Env) (inc : Bool) (dest0 : Option (List Block)) (e : String),
      (convert_pdf_to_docx env inc dest0).outcome = .error e →
      (convert_pdf_to_docx env inc dest0).dest = dest0) ∧
    (∀ (pdf : Pdf) (inc : Bool) (dest0 : Option (List Block))
        (u : String → Bool) (r : Bool) (t : DateTime) (doc : List Block),
      (processPages inc pdf [] []).1 = .ok doc →
      (convert_pdf_to_docx ⟨some pdf, true, true, u, r, t⟩ inc dest0).dest =
        some doc) := by
  constructor
  · intro env inc dest0 e h
    rcases env with ⟨op, mk, sv, u, r, t⟩
    cases op with
    | none => rfl
    | some pdf =>
      cases mk with
      | false => rfl
      | true =>
        simp only [convert_pdf_to_docx, if_true] at h ⊢
        cases hp : processPages inc pdf [] [] with
        | mk res fs =>
          rw [hp] at h
          cases res with
          | error e2 => rfl
          | ok doc =>
            cases sv with
            | false => rfl
            | true => simp at h
  · intro pdf inc dest0 u r t doc hp
    simp only [convert_pdf_to_docx, if_true]
    cases hq : processPages inc pdf [] [] with
    | mk res fs =>
      rw [hq] at hp
      have hres : res = .ok doc := hp
      rw [hres]

/-- Witness for C3: a failing open leaves an empty destination empty. -/
theorem no_partial_write_witness :
    (convert_pdf_to_docx ⟨none, true, true, (fun _ => true), true,
        ⟨2024, 1, 1, 0, 0, 0, 1⟩⟩ true none).dest = none := by
  exact no_partial_write.1
    ⟨none, true, true, (fun _ => true), true, ⟨2024, 1, 1, 0, 0, 0, 1⟩⟩
    true none "OpenError" rfl

/-- C7 (amended): whenever the open and the creation of the temporary
directory both succeed, the source document is closed exactly once
before convert returns, on the success path and on every failure path
inside the try block. -/
theorem source_closed_once_after_mkdir (pdf : Pdf) (sv : Bool)
    (u : String → Bool) (r : Bool) (t : DateTime) (inc : Bool)
    (dest0 : Option (List Block)) :
    (convert_pdf_to_docx ⟨some pdf, true, sv, u, r, t⟩ inc
        dest0).closeCount = 1 := by
  simp only [convert_pdf_to_docx, if_true]
  cases hp : processPages inc pdf [] [] with
  | mk res fs =>
    cases res with
    | error e => rfl
    | ok doc => cases sv <;> rfl

/-- C7 (counterexample): when the creation of the temporary directory
fails after a successful open, the exception propagates before the
try/finally is entered and pdf.close() never runs: the close count on
this failure path is 0, refuting closed exactly once on every failure
path. -/
theorem source_not_closed_on_mkdir_failure :
    (convert_pdf_to_docx ⟨some [], false, true, (fun _ => true), true,
        ⟨2024, 1, 1, 0, 0, 0, 2⟩⟩ true none).outcome = .error "MkdirError" ∧
    (convert_pdf_to_docx ⟨some [], false, true, (fun _ => true), true,
        ⟨2024, 1, 1, 0, 0, 0, 2⟩⟩ true none).closeCount = 0 :=
  ⟨rfl, rfl⟩

/-- C9: with a deterministic parser (the same parsed source both times)
and a writable destination, a successful conversion followed by a second
conversion of the same source to the same destination succeeds and
overwrites the destination with identical structural content, whatever
the prior destination content, the clock values, and the cleanup
outcomes of the two runs. -/
theorem convert_twice_same_content (pdf : Pdf) (inc : Bool)
    (d0 : Option (List Block)) (u u2 : String → Bool) (r r2 : Bool)
    (t t2 : DateTime)
    (hok : (convert_pdf_to_docx ⟨some pdf, true, true, u, r, t⟩ inc
        d0).outcome = .ok ()) :
    (convert_pdf_to_docx ⟨some pdf, true, true, u2, r2, t2⟩ inc
        ((convert_pdf_to_docx ⟨some pdf, true, true, u, r, t⟩ inc
          d0).dest)).outcome = .ok () ∧
    (convert_pdf_to_docx ⟨some pdf, true, true, u2, r2, t2⟩ inc
        ((convert_pdf_to_docx ⟨some pdf, true, true, u, r, t⟩ inc
          d0).dest)).dest =
      (convert_pdf_to_docx ⟨some pdf, true, true, u, r, t⟩ inc d0).dest := by
  simp only [convert_pdf_to_docx, if_true] at hok ⊢
  cases hp : processPages inc pdf [] [] with
  | mk res fs =>
    rw [hp] at hok
    cases res with
    | error e => simp at hok
    | ok doc => exact ⟨rfl, rfl⟩

/-- Witness for C9: converting a one-page source twice to the same
destination leaves the paragraph content of the first run in place. -/
theorem convert_twice_same_content_witness :
    (convert_pdf_to_docx ⟨some [⟨"x", true, [], []⟩], true, true,
        (fun _ => true), true, ⟨2024, 1, 1, 0, 0, 0, 3⟩⟩ true
        ((convert_pdf_to_docx ⟨some [⟨"x", true, [], []⟩], true, true,
            (fun _ => true), true, ⟨2024, 1, 1, 0, 0, 0, 3⟩⟩ true
          none).dest)).dest = some [Block.para "x"] := by
  have h := convert_twice_same_content [⟨"x", true, [], []⟩] true none
    (fun _ => true) (fun _ => true) true true
    ⟨2024, 1, 1, 0, 0, 0, 3⟩ ⟨2024, 1, 1, 0, 0, 0, 3⟩ (by rfl)
  exact h.2.trans (by rfl)

/-- Append on the left of string concatenation cancels. -/
theorem string_append_left_cancel (p a b : String) (h : p ++ a = p ++ b) :
    a = b := by
  have hd := congrArg String.data h
  simp only [String.data_append] at hd
  have hc := List.append_cancel_left hd
  cases a
  cases b
  exact congrArg String.mk hc

/-- C5 (counterexample): two conversions whose datetime.now() values
differ only in microseconds receive the same temporary directory name:
the strftime format has second resolution, and mkdir(exist_ok=True) does
not even detect the collision, refuting name uniqueness for concurrent
or successive runs within one second. -/
theorem tempdir_name_collision :
    tempDirName ⟨2024, 6, 1, 12, 0, 5, 0⟩ =
      tempDirName ⟨2024, 6, 1, 12, 0, 5, 999999⟩ ∧
    (⟨2024, 6, 1, 12, 0, 5, 0⟩ : DateTime) ≠
      ⟨2024, 6, 1, 12, 0, 5, 999999⟩ := by
  exact ⟨rfl, by decide⟩

/-- C5 (amended): every conversion that creates a temporary directory
creates exactly one and names it _tmp_imgs_ followed by the
second-resolution timestamp of its start instant; two conversions
receive the same name exactly when their start instants render to the
same second-resolution timestamp, so runs whose formatted timestamps
differ never collide, while runs inside the same second always do. -/
theorem tempdir_name_unique_iff (pdf : Pdf) (sv : Bool)
    (u : String → Bool) (r : Bool) (inc : Bool)
    (d0 : Option (List Block)) (t1 t2 : DateTime) :
    (convert_pdf_to_docx ⟨some pdf, true, sv, u, r, t1⟩ inc d0).tempName =
      some (tempDirName t1) ∧
    (tempDirName t1 = tempDirName t2 ↔ timestampStr t1 = timestampStr t2) := by
  constructor
  · simp only [convert_pdf_to_docx, if_true]
    cases hp : processPages inc pdf [] [] with
    | mk res fs =>
      cases res with
      | error e => rfl
      | ok doc => cases sv <;> rfl
  · constructor
    · intro h
      exact string_append_left_cancel _ _ _ h
    · intro h
      unfold tempDirName
      rw [h]

/-- A failing file is reported inside the per-file loop, whatever its
position. -/
theorem runFiles_error_mem (files : List String)
    (out : String → Option String) (total : Nat) :
    ∀ (idx : Nat) (f cause : String), f ∈ files → out f = some cause →
      Event.errorBox ("Falha ao converter " ++ f ++ ": " ++ cause) ∈
        runFiles out total idx files := by
  induction files with
  | nil => intro idx f cause hf _; exact absurd hf (List.not_mem_nil f)
  | cons g rest ih =>
    intro idx f cause hf hout
    rcases List.mem_cons.mp hf with heq | hmem
    · subst heq
      simp [runFiles, convertSingleEvents, hout]
    · exact List.mem_cons_of_mem _ (List.mem_append_right _
        (List.mem_cons_of_mem _ (ih (idx + 1) f cause hmem hout)))

/-- The per-file loop emits a progress update for every position. -/
theorem runFiles_progress_mem (files : List String)
    (out : String → Option String) (total : Nat) :
    ∀ (idx i : Nat), i < files.length →
      Event.progress (idx + i + 1) ∈ runFiles out total idx files := by
  induction files with
  | nil => intro idx i h; simp at h
  | cons g rest ih =>
    intro idx i h
    cases i with
    | zero => simp [runFiles]
    | succ j =>
      have hj : j < rest.length := by simpa using h
      have harith : idx + (j + 1) + 1 = (idx + 1) + j + 1 := by omega
      rw [harith]
      exact List.mem_cons_of_mem _ (List.mem_append_right _
        (List.mem_cons_of_mem _ (ih (idx + 1) j hj)))

/-- C6: for a nonempty batch, every file whose conversion fails produces
an error report naming the file and the cause, the driver still reaches
every file (a progress update for each of the N positions), and the
terminal status reports the total file count, the failed ones
included. -/
theorem batch_isolates_failures (files : List String)
    (out : String → Option String) (hne : files ≠ []) :
    (∀ f cause, f ∈ files → out f = some cause →
      Event.errorBox ("Falha ao converter " ++ f ++ ": " ++ cause) ∈
        convertAllPdfs files out) ∧
    (∀ i, i < files.length →
      Event.progress (i + 1) ∈ convertAllPdfs files out) ∧
    Event.statusMsg ("Concluído! " ++ toString files.length ++
        " arquivo(s) convertidos.") ∈ convertAllPdfs files out := by
  have hlen : ¬ files.length = 0 := by
    simpa [List.length_eq_zero] using hne
  simp only [convertAllPdfs, if_neg hlen]
  refine ⟨?_, ?_, ?_⟩
  · intro f cause hf hout
    exact List.mem_cons_of_mem _ (List.mem_append_left _
      (runFiles_error_mem files out files.length 0 f cause hf hout))
  · intro i hi
    have hm := runFiles_progress_mem files out files.length 0 i hi
    have h0 : 0 + i + 1 = i + 1 := by omega
    rw [h0] at hm
    exact List.mem_cons_of_mem _ (List.mem_append_left _ hm)
  · exact List.mem_cons_of_mem _ (List.mem_append_right _ (by simp))

/-- Witness for C6: two files, the first fails; the error names the file
and the cause, the second file is still reached, and the summary counts
both. -/
theorem batch_isolates_failures_witness :
    Event.errorBox "Falha ao converter a.pdf: boom" ∈
      convertAllPdfs ["a.pdf", "b.pdf"]
        (fun f => if f = "a.pdf" then some "boom" else none) ∧
    Event.progress 2 ∈ convertAllPdfs ["a.pdf", "b.pdf"]
        (fun f => if f = "a.pdf" then some "boom" else none) ∧
    Event.statusMsg "Concluído! 2 arquivo(s) convertidos." ∈
      convertAllPdfs ["a.pdf", "b.pdf"]
        (fun f => if f = "a.pdf" then some "boom" else none) := by
  have h := batch_isolates_failures ["a.pdf", "b.pdf"]
    (fun f => if f = "a.pdf" then some "boom" else none) (by simp)
  exact ⟨h.1 "a.pdf" "boom" (by simp) (by rfl), h.2.1 1 (by simp), h.2.2⟩

/-- Membership in the sorted insertion. -/
theorem mem_insertSorted (x a : String) :
    ∀ l : List String, a ∈ insertSorted x l ↔ a = x ∨ a ∈ l := by
  intro l
  induction l with
  | nil => simp [insertSorted]
  | cons y ys ih =>
    simp only [insertSorted]
    by_cases h : leStr x y = true
    · rw [if_pos h]
      simp [List.mem_cons]
    · rw [if_neg h]
      simp only [List.mem_cons, ih]
      tauto

/-- Sorting the name list preserves membership. -/
theorem mem_sortNames (a : String) : ∀ l, a ∈ sortNames l ↔ a ∈ l := by
  intro l
  induction l with
  | nil => simp [sortNames]
  | cons x xs ih => simp [sortNames, mem_insertSorted x a, ih]

/-- C10 (counterexample): under the case-insensitive windows flavour of
pathlib the pattern *.pdf matches REPORT.PDF and the driver does
discover it, while under the posix flavour it does not; the claim that a
file whose extension differs in case is never discovered is refuted on
the windows flavour. -/
theorem discover_uppercase_counterexample :
    discoverPdfs false ["REPORT.PDF"] = ["REPORT.PDF"] ∧
    discoverPdfs true ["REPORT.PDF"] = [] := ⟨rfl, rfl⟩

/-- C10 (amended): the batch driver discovers exactly the files whose
name ends in .pdf, compared case-sensitively under the posix pathlib
flavour (REPORT.PDF is skipped there) and after case folding under the
windows flavour (REPORT.PDF is discovered there); discovery alone
determines which files are converted and counted. -/
theorem discoverPdfs_membership (names : List String) (f : String) :
    (f ∈ discoverPdfs true names ↔
      f ∈ names ∧ strEndsWith f ".pdf" = true) ∧
    (f ∈ discoverPdfs false names ↔
      f ∈ names ∧ strEndsWith (strToLower f) ".pdf" = true) := by
  constructor
  · simp [discoverPdfs, mem_sortNames, List.mem_filter, matchesPdfPattern]
  · simp [discoverPdfs, mem_sortNames, List.mem_filter, matchesPdfPattern]

end PdfWord
